import Mathlib

/-!
Verification development for the rss-ai-feed-analyzer repository.

This file gives a shallow embedding, in Lean 4, of the core feed-ingestion
pipeline of the repository (the tiered feed parser, the identity-key
generator, the Mongo upsert sinks, the discovery/dedup step, and the run
coordinator), together with theorems settling the specification claims.

Python-level conventions used throughout the embedding:
- a Python value that may be `None` is an `Option`;
- Python string truthiness (`if s:`) is `s ≠ ""`, and for optional strings
  `pyTruthy` below;
- Python `a or b` on strings/optionals is `pyOr`;
- exceptions are an `Except` value at the point the library call occurs,
  caught exactly where the source has `try/except`;
- library calls whose internals are outside the repository (dateutil's
  date parsing, `urllib`'s `urljoin`/`urlparse`, HTML tree construction
  by BeautifulSoup) are passed in as environment functions, while all
  repository logic over their results is embedded concretely.
-/

/-- Python whitespace for `str.strip` / `\s` (space, tab, LF, CR, VT, FF). -/
def isPySpace (c : Char) : Bool :=
  c = ' ' || c = '\t' || c = '\n' || c = '\r' || c = Char.ofNat 11 || c = Char.ofNat 12

/-- Python `str.strip()`: drop leading and trailing whitespace. -/
def pyStrip (s : String) : String :=
  String.mk (((s.toList.dropWhile isPySpace).reverse.dropWhile isPySpace).reverse)

/-- Python truthiness of an optional string: `None` and `""` are falsy. -/
def pyTruthy : Option String → Bool
  | none => false
  | some s => s ≠ ""

/-- Python `a or b` over optional strings. -/
def pyOr (a b : Option String) : Option String :=
  if pyTruthy a then a else b

/-- Python `(a or "")`: coerce a falsy optional string to `""`. -/
def pyOrEmpty (a : Option String) : String :=
  match a with
  | none => ""
  | some s => s

/-- One pass of `re.sub(r"\s+", " ", s)`: each maximal whitespace run
becomes a single space.  `prev` records whether the previous character
was part of a whitespace run. -/
def collapseWsAux : List Char → Bool → List Char
  | [], _ => []
  | c :: cs, prev =>
    if isPySpace c then
      if prev then collapseWsAux cs true
      else ' ' :: collapseWsAux cs true
    else c :: collapseWsAux cs false

/-- `re.sub(r"\s+", " ", s).strip()` as used by `_generate_unique_id`. -/
def normalizeWs (s : String) : String :=
  pyStrip (String.mk (collapseWsAux s.toList false))

namespace FeedspotScraper

/-- A feedparser/lxml item dictionary as consumed by
`_generate_unique_id` and `save_item_to_mongo` in
`src/allfiles/feedspot_scraper.py`.  Each field models `item.get(key)`
(`none` when the key is absent or `None`). -/
structure FSItem where
  guid : Option String := none
  id : Option String := none
  link : Option String := none
  title : Option String := none
  published : Option String := none
  pubDate : Option String := none
  author : Option String := none
  author_detail_name : Option String := none
  summary : Option String := none
  description : Option String := none
deriving Repr, DecidableEq

/-- `_generate_unique_id(item, feed_url)` from
`src/allfiles/feedspot_scraper.py` lines 94-104:
`guid or id or ""`, `link or ""`, `(title or "").strip()`,
`published or pubDate or ""`, then
`base = guid or link or f"{title}|{published}|{feed_url}"`, and finally
`re.sub(r"\s+", " ", base).strip()`. -/
def _generate_unique_id (item : FSItem) (feed_url : String) : String :=
  let guid := pyOrEmpty (pyOr item.guid item.id)
  let link := pyOrEmpty item.link
  let title := pyStrip (pyOrEmpty item.title)
  let published := pyOrEmpty (pyOr item.published item.pubDate)
  let base :=
    if guid ≠ "" then guid
    else if link ≠ "" then link
    else title ++ "|" ++ published ++ "|" ++ feed_url
  normalizeWs base

end FeedspotScraper

namespace Rssfolder

/-- One element of `entry.get("links", [])` in a feedparser entry:
`rel` and `href` of an Atom link element. -/
structure FPLink where
  rel : Option String := none
  href : Option String := none
deriving Repr, DecidableEq

/-- A feedparser entry as read by `normalize_entry_from_feedparser` in
`src/allfiles/rssfolder.py`.  `title_detail_value` models
`(entry.get("title_detail") or \x7b\x7d).get("value")` and
`author_detail_name` models the analogous author lookup. -/
structure FPEntry where
  title : Option String := none
  title_detail_value : Option String := none
  link : Option String := none
  links : List FPLink := []
  author : Option String := none
  author_detail_name : Option String := none
  published : Option String := none
  updated : Option String := none
  pubDate : Option String := none
deriving Repr, DecidableEq

/-- The normalized item dictionary produced by the parser in
`src/allfiles/rssfolder.py`: exactly the keys Author, Link, PubDate,
Title. -/
structure Item where
  author : Option String := none
  link : Option String := none
  pubDate : Option String := none
  title : Option String := none
deriving Repr, DecidableEq

/-- `parse_date_iso(val)` from `src/allfiles/rssfolder.py` lines 153-162.
`pd` is the external `dateutil.parser.parse(...).isoformat()` call:
`pd s = none` models both an unparseable date (parse returning `None` or
raising) and `some iso` a successful parse.  A falsy input (`None` or
`""`) short-circuits to `None` before the library is consulted. -/
def parse_date_iso (pd : String → Option String) : Option String → Option String
  | none => none
  | some s => if s = "" then none else pd s

/-- `normalize_entry_from_feedparser(entry)` from
`src/allfiles/rssfolder.py` lines 165-182: title falls back to
`title_detail.value`, link falls back to the first Atom alternate link
with a truthy href, author falls back to `author_detail.name`, the date
string is `published or updated or pubDate` run through
`parse_date_iso`, and string fields are stripped. -/
def normalize_entry_from_feedparser (pd : String → Option String) (e : FPEntry) : Item :=
  let title := pyOr e.title e.title_detail_value
  let link :=
    if pyTruthy e.link then e.link
    else
      match e.links.find? (fun l => (l.rel == none || l.rel == some "alternate")
          && pyTruthy l.href) with
      | some l => l.href
      | none => e.link
  let author := pyOr e.author e.author_detail_name
  let pub := pyOr e.published (pyOr e.updated e.pubDate)
  { author := author.map pyStrip
    link := link.map pyStrip
    pubDate := parse_date_iso pd pub
    title := title.map pyStrip }

/-- An lxml element tree: tag (namespaced tags spelled
`\x7buri\x7dname` as lxml does), attributes, text, children. -/
inductive XmlEl : Type where
  | mk : String → List (String × String) → Option String → List XmlEl → XmlEl

/-- The element tag. -/
def XmlEl.tag : XmlEl → String
  | .mk t _ _ _ => t

/-- The element attributes. -/
def XmlEl.attrs : XmlEl → List (String × String)
  | .mk _ a _ _ => a

/-- The element text (`None` when absent). -/
def XmlEl.text : XmlEl → Option String
  | .mk _ _ x _ => x

/-- The direct children of the element. -/
def XmlEl.children : XmlEl → List XmlEl
  | .mk _ _ _ cs => cs

mutual
/-- All proper descendants of an element in document (pre-)order, as
traversed by lxml `findall(".//tag")`. -/
def XmlEl.descendants : XmlEl → List XmlEl
  | .mk _ _ _ cs => descList cs
/-- Descendant traversal of a sibling list: each element followed by its
own descendants. -/
def descList : List XmlEl → List XmlEl
  | [] => []
  | c :: cs => c :: (XmlEl.descendants c ++ descList cs)
end

/-- lxml `el.find(t)`: the first direct child with the given tag. -/
def XmlEl.findChild (e : XmlEl) (t : String) : Option XmlEl :=
  e.children.find? (fun c => c.tag == t)

/-- lxml `el.findall(".//" + t)` relative to `e`: descendants with tag
`t`, in document order. -/
def XmlEl.findAllDesc (e : XmlEl) (t : String) : List XmlEl :=
  e.descendants.filter (fun c => c.tag == t)

/-- lxml element truthiness: an `Element` is truthy iff it has children
(so Python `find(..) or find(..)` skips a childless match). -/
def pyElOr (a b : Option XmlEl) : Option XmlEl :=
  match a with
  | some e => if e.children.isEmpty then b else a
  | none => b

/-- The Atom namespace marker used in namespaced lxml tags. -/
def atomNS : String := "\x7bhttp://www.w3.org/2005/Atom\x7d"

/-- The Dublin Core `creator` tag used as the author fallback. -/
def dcCreatorTag : String := "\x7bhttp://purl.org/dc/elements/1.1/\x7dcreator"

/-- Helper for `fallback_parse_lxml`: `el.text.strip() if el is not None
and el.text else None`. -/
def truthyText (el : Option XmlEl) : Option String :=
  match el with
  | some e =>
    match e.text with
    | some s => if s ≠ "" then some (pyStrip s) else none
    | none => none
  | none => none

/-- Title extraction of `fallback_parse_lxml` (rssfolder.py 192-193). -/
def lxmlTitle (el : XmlEl) : Option String :=
  truthyText (el.findChild "title")

/-- Link extraction of `fallback_parse_lxml` (rssfolder.py 195-207):
`link` element href, else its text, else the `guid` text; a falsy
intermediate value is kept when the guid fallback also fails. -/
def lxmlLink (el : XmlEl) : Option String :=
  let link1 : Option String :=
    match el.findChild "link" with
    | some le =>
      match le.attrs.lookup "href" with
      | some h => if h ≠ "" then some (pyStrip h) else truthyText (some le)
      | none => truthyText (some le)
    | none => none
  if pyTruthy link1 then link1
  else
    match truthyText (el.findChild "guid") with
    | some g => some g
    | none => link1

/-- Author extraction of `fallback_parse_lxml` (rssfolder.py 209-222):
Atom `author/name`, else `author` text, with Dublin Core `creator` as
fallback when the result is falsy. -/
def lxmlAuthor (el : XmlEl) : Option String :=
  let author1 : Option String :=
    match el.findChild "author" with
    | some a =>
      match truthyText (a.findChild "name") with
      | some n => some n
      | none => truthyText (some a)
    | none => none
  if pyTruthy author1 then author1
  else
    match truthyText (el.findChild dcCreatorTag) with
    | some d => some d
    | none => author1

/-- Date extraction of `fallback_parse_lxml` (rssfolder.py 224-228):
`el.find("pubDate") or el.find("{atom}updated") or el.find("updated")`
under lxml element truthiness, then `parse_date_iso` on the stripped
text. -/
def lxmlPub (pd : String → Option String) (el : XmlEl) : Option String :=
  match pyElOr (el.findChild "pubDate")
      (pyElOr (el.findChild (atomNS ++ "updated")) (el.findChild "updated")) with
  | some p =>
    match p.text with
    | some s => if s ≠ "" then parse_date_iso pd (some (pyStrip s)) else none
    | none => none
  | none => none

/-- One node of `fallback_parse_lxml` (rssfolder.py 230-236): the item is
kept only when title or link is truthy. -/
def lxmlItemOf (pd : String → Option String) (el : XmlEl) : Option Item :=
  if pyTruthy (lxmlTitle el) || pyTruthy (lxmlLink el) then
    some { author := lxmlAuthor el, link := lxmlLink el
           pubDate := lxmlPub pd el, title := lxmlTitle el }
  else none

/-- `fallback_parse_lxml(content, base_url)` from
`src/allfiles/rssfolder.py` lines 184-239.  `root` is the outcome of
`etree.fromstring(content, recover=True)`; an error there is caught by
the surrounding `try` and yields `[]`.  Nodes are
`findall(".//item") + findall(".//{atom}entry") + findall(".//entry")`. -/
def fallback_parse_lxml (pd : String → Option String) (root : Except Unit XmlEl) :
    List Item :=
  match root with
  | .error _ => []
  | .ok r =>
    let nodes := r.findAllDesc "item" ++ r.findAllDesc (atomNS ++ "entry")
      ++ r.findAllDesc "entry"
    nodes.filterMap (lxmlItemOf pd)

/-- One candidate block of `fallback_parse_html` (an `article`/`li`/`div`
found by BeautifulSoup).  `anchor` is the first `<a href=..>` inside it as
`(get_text(strip=True), href)`; `heading` the text of the first
`h1`/`h2`/`h3`; `timeTag` the first `<time>` element as
`(datetime attribute, text)`; `author` the result of the
class-based author lookup (library logic, not repository logic). -/
structure HtmlBlock where
  anchor : Option (String × String) := none
  heading : Option String := none
  timeTag : Option (Option String × Option String) := none
  author : Option String := none
deriving Repr, DecidableEq

/-- Title of an HTML block (rssfolder.py 248-257): the anchor text, with
the heading text as fallback when the anchor text is falsy. -/
def htmlTitle (c : HtmlBlock) : Option String :=
  let t0 : Option String := c.anchor.map (fun a => a.1)
  if pyTruthy t0 then t0
  else
    match c.heading with
    | some h => some h
    | none => t0

/-- Link of an HTML block (rssfolder.py 254): `urljoin(base_url, href)`
when an anchor exists. -/
def htmlLink (uj : String → String → String) (base : String) (c : HtmlBlock) :
    Option String :=
  c.anchor.map (fun a => uj base a.2)

/-- Date of an HTML block (rssfolder.py 258-262): the `datetime`
attribute of a `<time>` tag, else its stripped text, through
`parse_date_iso`. -/
def htmlPub (pd : String → Option String) (c : HtmlBlock) : Option String :=
  match c.timeTag with
  | some (dt, txt) =>
    if pyTruthy dt then parse_date_iso pd dt
    else if pyTruthy txt then parse_date_iso pd (txt.map pyStrip)
    else none
  | none => none

/-- One block of `fallback_parse_html` (rssfolder.py 266-272): kept only
when title or link is truthy. -/
def htmlItemOf (pd : String → Option String) (uj : String → String → String)
    (base : String) (c : HtmlBlock) : Option Item :=
  if pyTruthy (htmlTitle c) || pyTruthy (htmlLink uj base c) then
    some { author := c.author, link := htmlLink uj base c
           pubDate := htmlPub pd c, title := htmlTitle c }
  else none

/-- `fallback_parse_html(content, base_url)` from
`src/allfiles/rssfolder.py` lines 241-273: scan at most 200 candidate
blocks. -/
def fallback_parse_html (pd : String → Option String) (uj : String → String → String)
    (blocks : List HtmlBlock) (base : String) : List Item :=
  (blocks.take 200).filterMap (htmlItemOf pd uj base)

/-- The parse tier an item came from (spec vocabulary STRICT /
RECOVERED / HEURISTIC). -/
inductive Tier : Type where
  | STRICT
  | RECOVERED
  | HEURISTIC
deriving Repr, DecidableEq

/-- A normalized item together with the tier that produced it. -/
structure TaggedItem where
  item : Item
  tier : Tier
deriving Repr, DecidableEq

/-- The strict tier of `parse_feed_with_fallbacks` (rssfolder.py
288-293 and 304-308): normalize every feedparser entry and keep those
with a truthy Link or Title. -/
def strictItems (pd : String → Option String) (entries : List FPEntry) : List Item :=
  (entries.map (normalize_entry_from_feedparser pd)).filter
    (fun n => pyTruthy n.link || pyTruthy n.title)

/-- Environment of one `parse_feed_with_fallbacks(feed_url)` call: what
each external call would return on this input.  `parsedByUrl` and
`parsedFromRaw` are the entry lists of the two `feedparser.parse` calls
(an `error` models the library raising, caught by the outer `except`);
`raw` is `fetch_url_text` (`none` models any fetch failure, caught
inside that helper); `xmlRoot` is the recovering `etree.fromstring`;
`htmlBlocks` the candidate blocks BeautifulSoup finds in `raw`;
`parseDate` and `urljoin` the date/URL library calls. -/
structure ParseEnv where
  feedUrl : String
  parseDate : String → Option String
  urljoin : String → String → String
  parsedByUrl : Except Unit (List FPEntry)
  raw : Option String
  parsedFromRaw : Except Unit (List FPEntry)
  xmlRoot : Except Unit XmlEl
  htmlBlocks : List HtmlBlock

/-- Tag a list of parsed items with the tier that produced them. -/
def tagItems (t : Tier) (l : List Item) : List TaggedItem :=
  l.map (fun i => { item := i, tier := t })

/-- `parse_feed_with_fallbacks(feed_url)` from
`src/allfiles/rssfolder.py` lines 275-327: feedparser by URL, then
feedparser on the fetched body (both the strict tier), then the
recovering lxml parse, then the HTML heuristic, returning at the first
stage whose item list is non-empty; every failure path returns `[]`.
The result is tagged with the tier that produced it. -/
def parse_feed_with_fallbacks (env : ParseEnv) : List TaggedItem :=
  match env.parsedByUrl with
  | .error _ => []
  | .ok entries =>
    let items1 := strictItems env.parseDate entries
    if ¬entries.isEmpty ∧ ¬items1.isEmpty then
      tagItems Tier.STRICT items1
    else
      match env.raw with
      | none => []
      | some r =>
        if r = "" then []     -- `if not raw` also rejects an empty body
        else
        match env.parsedFromRaw with
        | .error _ => []
        | .ok entries2 =>
          let items2 := strictItems env.parseDate entries2
          if ¬entries2.isEmpty ∧ ¬items2.isEmpty then
            tagItems Tier.STRICT items2
          else
            let itemsL := fallback_parse_lxml env.parseDate env.xmlRoot
            if ¬itemsL.isEmpty then
              tagItems Tier.RECOVERED itemsL
            else
              let itemsH := fallback_parse_html env.parseDate env.urljoin
                env.htmlBlocks env.feedUrl
              if ¬itemsH.isEmpty then
                tagItems Tier.HEURISTIC itemsH
              else []

end Rssfolder

/-- Python `needle in hay` on strings: substring containment. -/
def containsSub (needle hay : String) : Bool :=
  decide (needle.toList <:+: hay.toList)

/-- ASCII lowering of one character (the case arising in URLs). -/
def charLower (c : Char) : Char :=
  if 65 ≤ c.toNat ∧ c.toNat ≤ 90 then Char.ofNat (c.toNat + 32) else c

/-- Python `str.lower()` (ASCII model). -/
def strLower (s : String) : String := String.mk (s.toList.map charLower)

/-- Python `str.startswith(p)`. -/
def strStartsWith (s p : String) : Bool := p.toList.isPrefixOf s.toList

/-- Apply `f` to the first element satisfying `p`, keeping the rest: the
effect of a Mongo `update_one` on the first matching document. -/
def updateFirst {α : Type} (p : α → Bool) (f : α → α) : List α → List α
  | [] => []
  | x :: xs => if p x then f x :: xs else x :: updateFirst p f xs

/-- Insert into a ≤-sorted list of strings. -/
def insertSorted (s : String) : List String → List String
  | [] => [s]
  | x :: xs => if s ≤ x then s :: x :: xs else x :: insertSorted s xs

/-- Python `sorted` on a list of strings (insertion sort). -/
def pySorted (l : List String) : List String := l.foldr insertSorted []

namespace FeedspotScraper

/-- A document of the `feed_items` collection as written by
`save_item_to_mongo` (feedspot_scraper.py 106-131): the `$set` fields
plus the `$setOnInsert` field `inserted_at`. -/
structure MDoc where
  unique_id : String
  feed_url : String
  title : Option String
  link : Option String
  author : Option String
  published : Option String
  summary : Option String
  raw : FSItem
  last_seen : Nat
  inserted_at : Nat
deriving Repr, DecidableEq

/-- The author field of the `$set` document:
`item.get("author") or item.get("author_detail", \x7b\x7d).get("name")`. -/
def itemAuthorOf (item : FSItem) : Option String :=
  pyOr item.author item.author_detail_name

/-- The published field of the `$set` document. -/
def itemPublishedOf (item : FSItem) : Option String :=
  pyOr item.published item.pubDate

/-- The summary field of the `$set` document. -/
def itemSummaryOf (item : FSItem) : Option String :=
  pyOr item.summary item.description

/-- The `$set` part of the upsert: overwrite every mutable field of an
existing document, leaving only `inserted_at` untouched. -/
def applySet (item : FSItem) (feed_url : String) (now : Nat) (d : MDoc) : MDoc :=
  { d with
    unique_id := _generate_unique_id item feed_url
    feed_url := feed_url
    title := item.title
    link := item.link
    author := itemAuthorOf item
    published := itemPublishedOf item
    summary := itemSummaryOf item
    raw := item
    last_seen := now }

/-- The document created on insert: the `$set` fields plus
`inserted_at = now` from `$setOnInsert`. -/
def insertDoc (item : FSItem) (feed_url : String) (now : Nat) : MDoc :=
  { unique_id := _generate_unique_id item feed_url
    feed_url := feed_url
    title := item.title
    link := item.link
    author := itemAuthorOf item
    published := itemPublishedOf item
    summary := itemSummaryOf item
    raw := item
    last_seen := now
    inserted_at := now }

/-- `save_item_to_mongo(item, feed_url)` from
`src/allfiles/feedspot_scraper.py` lines 106-131:
`update_one({unique_id}, {$set: doc, $setOnInsert: {inserted_at}},
upsert=True)` against a collection modelled as a document list; the
first document matching the key is updated, else a new one is appended.
(The `DuplicateKeyError` race handler is a no-op sequentially.) -/
def save_item_to_mongo (item : FSItem) (feed_url : String) (now : Nat)
    (store : List MDoc) : List MDoc :=
  let uid := _generate_unique_id item feed_url
  if store.any (fun d => d.unique_id == uid) then
    updateFirst (fun d => d.unique_id == uid) (applySet item feed_url now) store
  else
    store ++ [insertDoc item feed_url now]

/-- `find_one({unique_id: uid})`: the first document with that key. -/
def findByKey (store : List MDoc) (uid : String) : Option MDoc :=
  store.find? (fun d => d.unique_id == uid)

/-- The number of documents holding the key (the unique index keeps it
at most 1). -/
def countKey (store : List MDoc) (uid : String) : Nat :=
  (store.filter (fun d => d.unique_id == uid)).length

end FeedspotScraper

namespace Rssfolder

/-- Environment of one `extract_feed_links_from_resource(html, base)`
call: the hrefs of the `<a href>` and `<link href>` elements in document
order, the whitespace-separated tokens of the page text, and the URL
library calls (`clean` is `clean_feedspot_infiniterss`, built on
`urlparse`/`parse_qs`; `netloc` is `urlparse(u).netloc`). -/
structure ResPageEnv where
  anchors : List String
  linkTags : List String
  textTokens : List String
  clean : String → String
  urljoin : String → String → String
  netloc : String → String

/-- The feed-likeness test on `<a>` candidates (rssfolder.py 124):
`.xml`, `rss`, `feed`, `atom` or `feedburner` as a substring of the
lowercased URL. -/
def feedTokenAny (low : String) : Bool :=
  containsSub ".xml" low || containsSub "rss" low || containsSub "feed" low
    || containsSub "atom" low || containsSub "feedburner" low

/-- The feed-likeness test on `<link>` elements and text tokens
(rssfolder.py 132 and 138): same vocabulary without `feedburner`. -/
def linkTagTokenAny (low : String) : Bool :=
  containsSub ".xml" low || containsSub "rss" low || containsSub "feed" low
    || containsSub "atom" low

/-- Resolution of one href: strip, rewrite FeedSpot proxies, make
absolute against the page URL (rssfolder.py 115-119). -/
def resolveHref (env : ResPageEnv) (base h : String) : String :=
  env.urljoin base (env.clean (pyStrip h))

/-- `BLOCKLIST_DOMAINS` (rssfolder.py 45-47): shipped empty. -/
def BLOCKLIST_DOMAINS : List String := []

/-- The final keep test (rssfolder.py 143-150): drop `javascript:` and
`mailto:` pseudo-links and blocklisted domains. -/
def keepCandidate (env : ResPageEnv) (u : String) : Bool :=
  ¬strStartsWith u "javascript:" && ¬strStartsWith u "mailto:"
    && ¬BLOCKLIST_DOMAINS.any (fun b => containsSub b (strLower (env.netloc u)))

/-- `extract_feed_links_from_resource(html_text, base_url)` from
`src/allfiles/rssfolder.py` lines 105-151: collect feed-like candidates
from anchors, head `<link>` elements and raw text tokens into a Python
set (no duplicates), iterate it sorted, and filter pseudo-links and
blocklisted domains. -/
def extract_feed_links_from_resource (env : ResPageEnv) (base : String) :
    List String :=
  let fromAnchors := env.anchors.filterMap (fun h =>
    let full := resolveHref env base h
    if feedTokenAny (strLower full) then some full else none)
  let fromLinkTags := env.linkTags.filterMap (fun h =>
    let full := resolveHref env base h
    if linkTagTokenAny (strLower full) then some full else none)
  let fromText := env.textTokens.filter (fun t =>
    strStartsWith t "http" && linkTagTokenAny (strLower t))
  let candidates := (fromAnchors ++ fromLinkTags ++ fromText).dedup
  (pySorted candidates).filter (keepCandidate env)

end Rssfolder

namespace Refinerss

/-- A feedparser entry as read by `RSSAggregator.parse_feed`
(refinerss.py 197-223).  `published_parsed`/`updated_parsed` model the
time-struct attributes (present and truthy, as a timestamp);
`author_detail_name` is `entry.get("author_detail", \x7b\x7d).get("name")`
with the key-presence semantics of `dict.get`. -/
structure RFEntry where
  title : Option String := none
  link : Option String := none
  author : Option String := none
  author_detail_name : Option String := none
  published_parsed : Option Nat := none
  updated_parsed : Option Nat := none
deriving Repr, DecidableEq

/-- A stored entry of the `refinefeed_entries` collection: exactly the
four fields `parse_feed` builds.  `pubDate` mirrors the `pub_date`
variable, initialised to `None` and filled by the date cascade. -/
structure RFItem where
  title : String
  link : String
  author : String
  pubDate : Option Nat
deriving Repr, DecidableEq

/-- The per-entry body of `parse_feed` (refinerss.py 199-221): strip
title/link, author with the `Unknown` default, and the date cascade
`published_parsed`, else `updated_parsed`, else `datetime.now(utc)`. -/
def processEntry (now : Nat) (e : RFEntry) : RFItem :=
  { title := pyStrip (e.title.getD "")
    link := pyStrip (e.link.getD "")
    author := pyStrip (match e.author with
      | some a => a
      | none =>
        match e.author_detail_name with
        | some n => n
        | none => "Unknown")
    pubDate :=
      match e.published_parsed with
      | some t => some t
      | none =>
        match e.updated_parsed with
        | some t => some t
        | none => some now }

/-- The dictionary `parse_feed` returns on success. -/
structure RFFeedData where
  feed_url : String
  entries : List RFItem
  total_entries : Nat
deriving Repr, DecidableEq

/-- Environment of one `parse_feed(feed_url)` call: the entries of
`feedparser.parse(response.content)` (an `error` models `requests.get`
or the parse raising, caught by the outer `except`), and the current
UTC time. -/
structure RFEnv where
  response : Except Unit (List RFEntry)
  now : Nat

/-- `RSSAggregator.parse_feed(feed_url)` from `src/refinerss.py` lines
179-238: `None` when the fetch/parse raises or when the feed has no
entries; otherwise the normalized entry list with its count. -/
def parse_feed (env : RFEnv) (url : String) : Option RFFeedData :=
  match env.response with
  | .error _ => none
  | .ok es =>
    if es.isEmpty then none
    else
      let entries := es.map (processEntry env.now)
      some { feed_url := url, entries := entries, total_entries := entries.length }

/-- `find_one({link: l})`: the first stored entry with that link. -/
def find_one_link (store : List RFItem) (l : String) : Option RFItem :=
  store.find? (fun d => d.link == l)

/-- One iteration of `store_entries` (refinerss.py 251-273): an existing
entry (matched by link) is rewritten only when title or author changed;
a missing entry is inserted and counted. -/
def storeEntryStep (store : List RFItem) (count : Nat) (e : RFItem) :
    List RFItem × Nat :=
  match find_one_link store e.link with
  | some ex =>
    if ex.title ≠ e.title ∨ ex.author ≠ e.author then
      (updateFirst (fun d => d.link == e.link) (fun _ => e) store, count)
    else (store, count)
  | none => (store ++ [e], count + 1)

/-- `RSSAggregator.store_entries(feed_data)` from `src/refinerss.py`
lines 240-276 over a collection modelled as a list: returns the updated
collection and `new_entries_count`. -/
def store_entries (store : List RFItem) (fd : Option RFFeedData) :
    List RFItem × Nat :=
  match fd with
  | none => (store, 0)
  | some f =>
    if f.entries.isEmpty then (store, 0)
    else f.entries.foldl (fun acc e => storeEntryStep acc.1 acc.2 e) (store, 0)

/-- Environment of one `get_feed_urls_from_feedspot` call: the index
page fetch (an `error` models a network failure or a non-2xx status
raised by `raise_for_status`), the regex/soup harvesting of candidate
URLs from the page (library logic), and `urlparse` projections. -/
structure DiscEnv where
  fetchIndex : Except Unit String
  harvest : String → List String
  netloc : String → String
  scheme : String → String

/-- `RSSAggregator.get_feed_urls_from_feedspot()` from
`src/refinerss.py` lines 122-177: on a fetch failure the `except`
returns `[]`; otherwise harvested candidates are deduplicated
(`list(set(..))`) and filtered to http/https URLs off feedspot.com. -/
def get_feed_urls_from_feedspot (env : DiscEnv) : List String :=
  match env.fetchIndex with
  | .error _ => []
  | .ok html =>
    ((env.harvest html).dedup).filter (fun u =>
      ¬containsSub "feedspot.com" (env.netloc u)
        && (env.scheme u == "http" || env.scheme u == "https")
        && env.netloc u ≠ "")

/-- The statistics dictionary `update_all_feeds` returns. -/
structure UStats where
  total_feeds : Nat
  successful_feeds : Nat
  total_entries : Nat
  new_entries : Nat
deriving Repr, DecidableEq

/-- Environment of one `update_all_feeds` cycle: the discovery
environment, one parse environment per feed URL, an injected unexpected
exception per iteration (caught by the loop's `except` and skipped),
and the collection state at cycle start. -/
structure UpdateEnv where
  disc : DiscEnv
  perFeed : String → RFEnv
  fault : String → Bool
  store0 : List RFItem

/-- The body of the per-feed loop of `update_all_feeds` (refinerss.py
299-313): an iteration that raises is caught and skipped; a feed whose
`parse_feed` returns `None` contributes nothing; otherwise the stats
are accumulated and the entries stored. -/
def feedStep (env : UpdateEnv) (acc : UStats × List RFItem) (url : String) :
    UStats × List RFItem :=
  if env.fault url then acc
  else
    match parse_feed (env.perFeed url) url with
    | none => acc
    | some fd =>
      let stored := store_entries acc.2 (some fd)
      ({ acc.1 with
          successful_feeds := acc.1.successful_feeds + 1
          total_entries := acc.1.total_entries + fd.total_entries
          new_entries := acc.1.new_entries + stored.2 }, stored.1)

/-- `RSSAggregator.update_all_feeds()` from `src/refinerss.py` lines
278-319: discovery, early return of all-zero stats when no URLs were
found, else the per-feed loop starting from
`total_feeds = len(feed_urls)`. -/
def update_all_feeds (env : UpdateEnv) : UStats × List RFItem :=
  let urls := get_feed_urls_from_feedspot env.disc
  if urls.isEmpty then
    ({ total_feeds := 0, successful_feeds := 0, total_entries := 0,
       new_entries := 0 }, env.store0)
  else
    urls.foldl (feedStep env)
      ({ total_feeds := urls.length, successful_feeds := 0, total_entries := 0,
         new_entries := 0 }, env.store0)

end Refinerss

/-- C3 counterexample: the claim says a present non-empty guid is used
*verbatim* as the identity key, but `_generate_unique_id` whitespace-
normalizes every key: a guid containing a double space yields a key with
the run collapsed, which differs from the guid. -/
theorem generate_unique_id_guid_not_verbatim :
    FeedspotScraper._generate_unique_id { guid := some "a  b" } "f" = "a b"
      ∧ ("a b" : String) ≠ "a  b" := by
  constructor
  · decide
  · decide

/-- C3 (amended): `_generate_unique_id` is deterministic and resolves in
the order guid/id, then link, then the composite `title|published|feedURL`
(title stripped), with the *whole* resulting key whitespace-normalized
(runs collapsed, ends trimmed) rather than taken verbatim; any two items
with the same non-empty guid map to the same key regardless of their
other fields and of the feed URL. -/
theorem generate_unique_id_resolution (item : FeedspotScraper.FSItem) (url : String) :
    (pyOrEmpty (pyOr item.guid item.id) ≠ "" →
      FeedspotScraper._generate_unique_id item url =
        normalizeWs (pyOrEmpty (pyOr item.guid item.id)))
    ∧ (pyOrEmpty (pyOr item.guid item.id) = "" → pyOrEmpty item.link ≠ "" →
      FeedspotScraper._generate_unique_id item url = normalizeWs (pyOrEmpty item.link))
    ∧ (pyOrEmpty (pyOr item.guid item.id) = "" → pyOrEmpty item.link = "" →
      FeedspotScraper._generate_unique_id item url =
        normalizeWs (pyStrip (pyOrEmpty item.title) ++ "|"
          ++ pyOrEmpty (pyOr item.published item.pubDate) ++ "|" ++ url))
    ∧ (∀ (item2 : FeedspotScraper.FSItem) (url2 : String) (g : String),
        item.guid = some g → item2.guid = some g → g ≠ "" →
        FeedspotScraper._generate_unique_id item url =
          FeedspotScraper._generate_unique_id item2 url2) := by
  refine ⟨?_, ?_, ?_, ?_⟩
  · intro h
    simp only [FeedspotScraper._generate_unique_id]
    rw [if_pos h]
  · intro h1 h2
    simp only [FeedspotScraper._generate_unique_id, h1]
    simp only [ne_eq, not_true_eq_false, if_false]
    rw [if_pos h2]
  · intro h1 h2
    simp only [FeedspotScraper._generate_unique_id, h1, h2]
    simp
  · intro item2 url2 g hg1 hg2 hgne
    have t1 : pyOr item.guid item.id = some g := by
      simp [pyOr, pyTruthy, hg1, hgne]
    have t2 : pyOr item2.guid item2.id = some g := by
      simp [pyOr, pyTruthy, hg2, hgne]
    simp only [FeedspotScraper._generate_unique_id, t1, t2, pyOrEmpty]
    simp [hgne]

/-- Witness for `generate_unique_id_resolution` at a concrete item with a
non-empty guid: the key is the normalized guid, and a second item sharing
that guid gets the same key. -/
theorem generate_unique_id_resolution_witness :
    FeedspotScraper._generate_unique_id { guid := some "g7" } "u1" = normalizeWs "g7"
    ∧ FeedspotScraper._generate_unique_id { guid := some "g7" } "u1" =
        FeedspotScraper._generate_unique_id { guid := some "g7", summary := some "s" } "u2" := by
  constructor
  · exact (generate_unique_id_resolution { guid := some "g7" } "u1").1 (by decide)
  · exact (generate_unique_id_resolution { guid := some "g7" } "u1").2.2.2
      { guid := some "g7", summary := some "s" } "u2" "g7" rfl rfl (by decide)

theorem processEntry_pubDate_isSome (now : Nat) (e : Refinerss.RFEntry) :
    (Refinerss.processEntry now e).pubDate.isSome = true := by
  simp only [Refinerss.processEntry]
  cases e.published_parsed <;> cases e.updated_parsed <;> simp

/-- C10: every entry produced by `RSSAggregator.parse_feed` has a
non-null pubDate: the cascade falls back to the current UTC time when
neither `published_parsed` nor `updated_parsed` is available, and no
entry is rejected for lacking a date. -/
theorem parse_feed_pubdate_never_null (env : Refinerss.RFEnv) (url : String)
    (fd : Refinerss.RFFeedData) (h : Refinerss.parse_feed env url = some fd) :
    (∀ it ∈ fd.entries, it.pubDate.isSome = true)
    ∧ (∀ e : Refinerss.RFEntry, e.published_parsed = none → e.updated_parsed = none →
        (Refinerss.processEntry env.now e).pubDate = some env.now) := by
  constructor
  · intro it hit
    simp only [Refinerss.parse_feed] at h
    rcases henv : env.response with err | es
    · rw [henv] at h; exact absurd h (by simp)
    · rw [henv] at h
      by_cases hes : es.isEmpty
      · simp [hes] at h
      · simp only [hes, Bool.false_eq_true, if_false, Option.some.injEq] at h
        have hent : fd.entries = es.map (Refinerss.processEntry env.now) := by
          rw [← h]
        rw [hent] at hit
        obtain ⟨e, _, he⟩ := List.mem_map.mp hit
        rw [← he]
        exact processEntry_pubDate_isSome env.now e
  · intro e hp hu
    simp [Refinerss.processEntry, hp, hu]

/-- Witness for `parse_feed_pubdate_never_null`: a feed with a single
entry carrying no date at all; the stored entry gets `now` (= 5) as its
pubDate. -/
theorem parse_feed_pubdate_never_null_witness :
    (Refinerss.processEntry 5 {}).pubDate = some 5
    ∧ (Refinerss.processEntry 5 {}).pubDate.isSome = true := by
  have h := parse_feed_pubdate_never_null { response := Except.ok [{}], now := 5 } "u"
    { feed_url := "u", entries := [Refinerss.processEntry 5 {}], total_entries := 1 }
    (by rfl)
  exact ⟨h.2 {} rfl rfl, h.1 (Refinerss.processEntry 5 {}) (by simp)⟩

/-- C9: `store_entries` rewrites an existing entry (matched by link)
only when title or author differs; when both agree the stored document
is left entirely unchanged — in particular a pubDate difference alone
never triggers an update — and the returned count increments only on
inserts, never on updates. -/
theorem store_entries_frame (store : List Refinerss.RFItem) (c : Nat)
    (e ex : Refinerss.RFItem) :
    (Refinerss.find_one_link store e.link = some ex → ex.title = e.title →
      ex.author = e.author → Refinerss.storeEntryStep store c e = (store, c))
    ∧ (Refinerss.find_one_link store e.link = some ex →
      (ex.title ≠ e.title ∨ ex.author ≠ e.author) →
      Refinerss.storeEntryStep store c e =
        (updateFirst (fun d => d.link == e.link) (fun _ => e) store, c))
    ∧ (Refinerss.find_one_link store e.link = none →
      Refinerss.storeEntryStep store c e = (store ++ [e], c + 1))
    ∧ (∀ f : Refinerss.RFFeedData, ¬f.entries.isEmpty →
      Refinerss.store_entries store (some f) =
        f.entries.foldl (fun acc x => Refinerss.storeEntryStep acc.1 acc.2 x) (store, 0)) := by
  refine ⟨?_, ?_, ?_, ?_⟩
  · intro hfind ht ha
    simp [Refinerss.storeEntryStep, hfind, ht, ha]
  · intro hfind hne
    simp only [Refinerss.storeEntryStep, hfind]
    rw [if_pos hne]
  · intro hfind
    simp [Refinerss.storeEntryStep, hfind]
  · intro f hf
    simp [Refinerss.store_entries, hf]

/-- Witness for `store_entries_frame`: an incoming entry equal to the
stored one except for its pubDate leaves the store untouched and counts
zero; a fresh link is inserted and counted once. -/
theorem store_entries_frame_witness :
    Refinerss.storeEntryStep [{ title := "t", link := "l", author := "a", pubDate := some 1 }] 0
        { title := "t", link := "l", author := "a", pubDate := some 9 }
      = ([{ title := "t", link := "l", author := "a", pubDate := some 1 }], 0)
    ∧ Refinerss.storeEntryStep [] 0 { title := "t", link := "l2", author := "a", pubDate := none }
      = ([{ title := "t", link := "l2", author := "a", pubDate := none }], 1) := by
  constructor
  · exact (store_entries_frame [{ title := "t", link := "l", author := "a", pubDate := some 1 }]
      0 { title := "t", link := "l", author := "a", pubDate := some 9 }
      { title := "t", link := "l", author := "a", pubDate := some 1 }).1 (by rfl) rfl rfl
  · exact (store_entries_frame [] 0 { title := "t", link := "l2", author := "a", pubDate := none }
      { title := "t", link := "l2", author := "a", pubDate := none }).2.2.1 (by rfl)

/-- C6: when the index page cannot be retrieved, discovery returns zero
sources and the cycle terminates early with every statistic at zero and
the store untouched, without any exception escaping. -/
theorem cycle_zero_on_discovery_failure (env : Refinerss.UpdateEnv)
    (h : env.disc.fetchIndex = Except.error ()) :
    Refinerss.get_feed_urls_from_feedspot env.disc = []
    ∧ Refinerss.update_all_feeds env =
        ({ total_feeds := 0, successful_feeds := 0, total_entries := 0,
           new_entries := 0 }, env.store0) := by
  have hg : Refinerss.get_feed_urls_from_feedspot env.disc = [] := by
    simp [Refinerss.get_feed_urls_from_feedspot, h]
  exact ⟨hg, by simp [Refinerss.update_all_feeds, hg]⟩

/-- Witness for `cycle_zero_on_discovery_failure` at a concrete
environment whose index fetch raises. -/
theorem cycle_zero_on_discovery_failure_witness :
    Refinerss.update_all_feeds
        { disc := { fetchIndex := Except.error (), harvest := fun _ => ["x"],
                    netloc := fun _ => "h", scheme := fun _ => "http" },
          perFeed := fun _ => { response := Except.ok [], now := 0 },
          fault := fun _ => false, store0 := [] } =
      ({ total_feeds := 0, successful_feeds := 0, total_entries := 0,
         new_entries := 0 }, []) := by
  exact (cycle_zero_on_discovery_failure
    { disc := { fetchIndex := Except.error (), harvest := fun _ => ["x"],
                netloc := fun _ => "h", scheme := fun _ => "http" },
      perFeed := fun _ => { response := Except.ok [], now := 0 },
      fault := fun _ => false, store0 := [] } rfl).2

theorem feedStep_skip (env : Refinerss.UpdateEnv) (acc : Refinerss.UStats × List Refinerss.RFItem)
    (url : String)
    (h : env.fault url = true ∨ Refinerss.parse_feed (env.perFeed url) url = none) :
    Refinerss.feedStep env acc url = acc := by
  by_cases hf : env.fault url
  · simp [Refinerss.feedStep, hf]
  · rcases h with h | h
    · exact absurd h hf
    · simp [Refinerss.feedStep, hf, h]

theorem foldl_feedStep_allfail (env : Refinerss.UpdateEnv)
    (s : Refinerss.UStats × List Refinerss.RFItem) :
    ∀ urls : List String,
      (∀ u ∈ urls, env.fault u = true ∨ Refinerss.parse_feed (env.perFeed u) u = none) →
      List.foldl (Refinerss.feedStep env) s urls = s := by
  intro urls
  induction urls generalizing s with
  | nil => intro _; rfl
  | cons u rest ih =>
    intro hall
    have h1 : Refinerss.feedStep env s u = s :=
      feedStep_skip env s u (hall u (by simp))
    simp only [List.foldl_cons, h1]
    exact ih s (fun v hv => hall v (by simp [hv]))

/-- C7: per-feed failure isolation in `update_all_feeds`.  A feed whose
iteration raises, or whose `parse_feed` yields nothing, contributes zero
to every counter and leaves the store untouched; removing such a feed
from the URL list does not change the outcome of the remaining feeds;
and even when every discovered source fails the cycle still returns a
statistics record (successes and entry counts zero, the feed total
intact) instead of propagating an exception. -/
theorem update_all_feeds_isolation (env : Refinerss.UpdateEnv) :
    (∀ (acc : Refinerss.UStats × List Refinerss.RFItem) (url : String),
      (env.fault url = true ∨ Refinerss.parse_feed (env.perFeed url) url = none) →
      Refinerss.feedStep env acc url = acc)
    ∧ (∀ (s : Refinerss.UStats × List Refinerss.RFItem) (urls1 urls2 : List String)
        (bad : String),
      (env.fault bad = true ∨ Refinerss.parse_feed (env.perFeed bad) bad = none) →
      List.foldl (Refinerss.feedStep env) s (urls1 ++ bad :: urls2)
        = List.foldl (Refinerss.feedStep env) s (urls1 ++ urls2))
    ∧ ((∀ u ∈ Refinerss.get_feed_urls_from_feedspot env.disc,
          env.fault u = true ∨ Refinerss.parse_feed (env.perFeed u) u = none) →
      Refinerss.update_all_feeds env =
        ({ total_feeds := (Refinerss.get_feed_urls_from_feedspot env.disc).length,
           successful_feeds := 0, total_entries := 0, new_entries := 0 }, env.store0)) := by
  refine ⟨feedStep_skip env, ?_, ?_⟩
  · intro s urls1 urls2 bad hbad
    rw [List.foldl_append, List.foldl_append, List.foldl_cons,
      feedStep_skip env _ bad hbad]
  · intro hall
    by_cases hurls : (Refinerss.get_feed_urls_from_feedspot env.disc).isEmpty
    · have hnil : Refinerss.get_feed_urls_from_feedspot env.disc = [] :=
        List.isEmpty_iff.mp hurls
      simp [Refinerss.update_all_feeds, hnil]
    · simp only [Refinerss.update_all_feeds, hurls, Bool.false_eq_true, if_false]
      exact foldl_feedStep_allfail env _ _ hall

/-- Witness for `update_all_feeds_isolation`: one discovered feed whose
parse yields no entries; the cycle returns total_feeds = 1 with all
other counters zero and the store unchanged. -/
theorem update_all_feeds_isolation_witness :
    Refinerss.update_all_feeds
        { disc := { fetchIndex := Except.ok "page", harvest := fun _ => ["http://a/rss"],
                    netloc := fun _ => "a", scheme := fun _ => "http" },
          perFeed := fun _ => { response := Except.ok [], now := 0 },
          fault := fun _ => false,
          store0 := [{ title := "t", link := "l", author := "a", pubDate := none }] } =
      ({ total_feeds := 1, successful_feeds := 0, total_entries := 0, new_entries := 0 },
        [{ title := "t", link := "l", author := "a", pubDate := none }]) := by
  have h := (update_all_feeds_isolation
    { disc := { fetchIndex := Except.ok "page", harvest := fun _ => ["http://a/rss"],
                netloc := fun _ => "a", scheme := fun _ => "http" },
      perFeed := fun _ => { response := Except.ok [], now := 0 },
      fault := fun _ => false,
      store0 := [{ title := "t", link := "l", author := "a", pubDate := none }] }).2.2
    (fun u _ => Or.inr rfl)
  simpa using h

theorem updateFirst_find? {α : Type} (p : α → Bool) (f : α → α)
    (hpf : ∀ x, p (f x) = true) (l : List α) :
    List.find? p (updateFirst p f l) = (List.find? p l).map f := by
  induction l with
  | nil => simp [updateFirst]
  | cons x xs ih =>
    by_cases hx : p x
    · rw [updateFirst, if_pos hx, List.find?_cons_of_pos _ (hpf x),
        List.find?_cons_of_pos _ hx]
      rfl
    · rw [updateFirst, if_neg (by simp [hx]), List.find?_cons_of_neg _ (by simp [hx]),
        List.find?_cons_of_neg _ (by simp [hx]), ih]

theorem updateFirst_filter_length {α : Type} (p : α → Bool) (f : α → α)
    (hpf : ∀ x, p (f x) = true) (l : List α) :
    (List.filter p (updateFirst p f l)).length = (List.filter p l).length := by
  induction l with
  | nil => rfl
  | cons x xs ih =>
    by_cases hx : p x
    · rw [updateFirst, if_pos hx, List.filter_cons, List.filter_cons,
        if_pos (hpf x), if_pos hx]
      simp
    · rw [updateFirst, if_neg (by simp [hx]), List.filter_cons, List.filter_cons,
        if_neg (by simp [hx]), if_neg (by simp [hx]), ih]

theorem applySet_applySet (item : FeedspotScraper.FSItem) (url : String)
    (t1 t2 : Nat) (d : FeedspotScraper.MDoc) :
    FeedspotScraper.applySet item url t2 (FeedspotScraper.applySet item url t1 d)
      = FeedspotScraper.applySet item url t2 d := rfl

theorem applySet_key (item : FeedspotScraper.FSItem) (url : String) (t : Nat)
    (d : FeedspotScraper.MDoc) :
    ((FeedspotScraper.applySet item url t d).unique_id
      == FeedspotScraper._generate_unique_id item url) = true := by
  simp [FeedspotScraper.applySet]

theorem insertDoc_key (item : FeedspotScraper.FSItem) (url : String) (t : Nat) :
    ((FeedspotScraper.insertDoc item url t).unique_id
      == FeedspotScraper._generate_unique_id item url) = true := by
  simp [FeedspotScraper.insertDoc]

theorem save_item_update (item : FeedspotScraper.FSItem) (url : String) (t : Nat)
    (store : List FeedspotScraper.MDoc)
    (h : store.any
      (fun d => d.unique_id == FeedspotScraper._generate_unique_id item url) = true) :
    FeedspotScraper.save_item_to_mongo item url t store
      = updateFirst (fun d => d.unique_id == FeedspotScraper._generate_unique_id item url)
          (FeedspotScraper.applySet item url t) store := by
  simp only [FeedspotScraper.save_item_to_mongo, h, if_true]

theorem save_item_insert (item : FeedspotScraper.FSItem) (url : String) (t : Nat)
    (store : List FeedspotScraper.MDoc)
    (h : store.any
      (fun d => d.unique_id == FeedspotScraper._generate_unique_id item url) = false) :
    FeedspotScraper.save_item_to_mongo item url t store
      = store ++ [FeedspotScraper.insertDoc item url t] := by
  simp only [FeedspotScraper.save_item_to_mongo, h, Bool.false_eq_true, if_false]

/-- C4: the Mongo upsert of `save_item_to_mongo` is idempotent per key.
Under the unique-index invariant (at most one document per key), two
successive upserts of the same item at times `t1 ≤ t2` leave exactly one
document for the key; its `inserted_at` (first-seen) is the same after
the second call as after the first; its `last_seen` is `t2`, later or
equal to the `t1` recorded by the first call; and the mutable fields
hold the item's current values. -/
theorem upsert_idempotent (store : List FeedspotScraper.MDoc)
    (item : FeedspotScraper.FSItem) (url : String) (t1 t2 : Nat) (hle : t1 ≤ t2)
    (hinv : FeedspotScraper.countKey store
      (FeedspotScraper._generate_unique_id item url) ≤ 1) :
    FeedspotScraper.countKey
        (FeedspotScraper.save_item_to_mongo item url t2
          (FeedspotScraper.save_item_to_mongo item url t1 store))
        (FeedspotScraper._generate_unique_id item url) = 1
    ∧ (FeedspotScraper.findByKey
          (FeedspotScraper.save_item_to_mongo item url t2
            (FeedspotScraper.save_item_to_mongo item url t1 store))
          (FeedspotScraper._generate_unique_id item url)).map
        (fun d => d.inserted_at)
      = (FeedspotScraper.findByKey
          (FeedspotScraper.save_item_to_mongo item url t1 store)
          (FeedspotScraper._generate_unique_id item url)).map
        (fun d => d.inserted_at)
    ∧ (∃ d2, FeedspotScraper.findByKey
          (FeedspotScraper.save_item_to_mongo item url t2
            (FeedspotScraper.save_item_to_mongo item url t1 store))
          (FeedspotScraper._generate_unique_id item url) = some d2
        ∧ d2.last_seen = t2 ∧ d2.title = item.title
        ∧ d2.author = FeedspotScraper.itemAuthorOf item
        ∧ d2.published = FeedspotScraper.itemPublishedOf item
        ∧ d2.summary = FeedspotScraper.itemSummaryOf item
        ∧ ∃ d1, FeedspotScraper.findByKey
              (FeedspotScraper.save_item_to_mongo item url t1 store)
              (FeedspotScraper._generate_unique_id item url) = some d1
            ∧ d1.last_seen = t1 ∧ d1.last_seen ≤ d2.last_seen) := by
  set uid := FeedspotScraper._generate_unique_id item url with huid
  set p : FeedspotScraper.MDoc → Bool := fun d => d.unique_id == uid with hp
  have hpset : ∀ t d, p (FeedspotScraper.applySet item url t d) = true :=
    fun t d => applySet_key item url t d
  have hpins : ∀ t, p (FeedspotScraper.insertDoc item url t) = true :=
    fun t => insertDoc_key item url t
  by_cases hany : store.any p
  · -- the key is already present: both calls are updates
    obtain ⟨d0, hd0mem, hd0p⟩ := List.any_eq_true.mp hany
    obtain ⟨d, hd⟩ := Option.isSome_iff_exists.mp
      (List.find?_isSome.mpr ⟨d0, hd0mem, hd0p⟩)
    have hs1 : FeedspotScraper.save_item_to_mongo item url t1 store
        = updateFirst p (FeedspotScraper.applySet item url t1) store :=
      save_item_update item url t1 store hany
    have hf1 : List.find? p (FeedspotScraper.save_item_to_mongo item url t1 store)
        = some (FeedspotScraper.applySet item url t1 d) := by
      rw [hs1, updateFirst_find? p _ (hpset t1), hd]; rfl
    have hany1 : (FeedspotScraper.save_item_to_mongo item url t1 store).any p = true := by
      rw [List.any_eq_true]
      exact List.find?_isSome.mp (by rw [hf1]; rfl)
    have hs2 : FeedspotScraper.save_item_to_mongo item url t2
          (FeedspotScraper.save_item_to_mongo item url t1 store)
        = updateFirst p (FeedspotScraper.applySet item url t2)
            (FeedspotScraper.save_item_to_mongo item url t1 store) :=
      save_item_update item url t2 _ hany1
    have hf2 : List.find? p (FeedspotScraper.save_item_to_mongo item url t2
          (FeedspotScraper.save_item_to_mongo item url t1 store))
        = some (FeedspotScraper.applySet item url t2 d) := by
      rw [hs2, updateFirst_find? p _ (hpset t2), hf1]; rfl
    have hcount1 : 1 ≤ FeedspotScraper.countKey store uid := by
      have hmem : d0 ∈ List.filter p store := List.mem_filter.mpr ⟨hd0mem, hd0p⟩
      have hpos : 0 < (List.filter p store).length := List.length_pos.mpr (by
        intro hnil; rw [hnil] at hmem; exact absurd hmem (List.not_mem_nil d0))
      exact hpos
    have hcounteq : FeedspotScraper.countKey store uid = 1 := le_antisymm hinv hcount1
    refine ⟨?_, ?_, ?_⟩
    · show (List.filter p _).length = 1
      rw [hs2, updateFirst_filter_length p _ (hpset t2), hs1,
        updateFirst_filter_length p _ (hpset t1)]
      exact hcounteq
    · show (List.find? p _).map _ = (List.find? p _).map _
      rw [hf1, hf2]; rfl
    · exact ⟨FeedspotScraper.applySet item url t2 d, hf2, rfl, rfl, rfl, rfl, rfl,
        FeedspotScraper.applySet item url t1 d, hf1, rfl, hle⟩
  · -- the key is absent: the first call inserts, the second updates
    have hanyf : store.any p = false := by
      exact Bool.not_eq_true _ ▸ hany
    have hnone : List.find? p store = none := by
      rw [List.find?_eq_none]
      intro x hx
      simp only [List.any_eq_true] at hany
      exact fun hpx => hany ⟨x, hx, hpx⟩
    have hs1 : FeedspotScraper.save_item_to_mongo item url t1 store
        = store ++ [FeedspotScraper.insertDoc item url t1] :=
      save_item_insert item url t1 store hanyf
    have hf1 : List.find? p (FeedspotScraper.save_item_to_mongo item url t1 store)
        = some (FeedspotScraper.insertDoc item url t1) := by
      rw [hs1, List.find?_append, hnone, Option.none_or,
        List.find?_cons_of_pos _ (hpins t1)]
    have hany1 : (FeedspotScraper.save_item_to_mongo item url t1 store).any p = true := by
      rw [List.any_eq_true]
      exact List.find?_isSome.mp (by rw [hf1]; rfl)
    have hs2 : FeedspotScraper.save_item_to_mongo item url t2
          (FeedspotScraper.save_item_to_mongo item url t1 store)
        = updateFirst p (FeedspotScraper.applySet item url t2)
            (FeedspotScraper.save_item_to_mongo item url t1 store) :=
      save_item_update item url t2 _ hany1
    have hf2 : List.find? p (FeedspotScraper.save_item_to_mongo item url t2
          (FeedspotScraper.save_item_to_mongo item url t1 store))
        = some (FeedspotScraper.applySet item url t2
            (FeedspotScraper.insertDoc item url t1)) := by
      rw [hs2, updateFirst_find? p _ (hpset t2), hf1]; rfl
    have hcount0 : (List.filter p store).length = 0 := by
      rw [List.length_eq_zero]
      rw [List.filter_eq_nil_iff]
      intro x hx
      simp only [List.any_eq_true] at hany
      exact fun hpx => hany ⟨x, hx, hpx⟩
    refine ⟨?_, ?_, ?_⟩
    · show (List.filter p _).length = 1
      rw [hs2, updateFirst_filter_length p _ (hpset t2), hs1, List.filter_append,
        List.length_append, hcount0, List.filter_cons, if_pos (hpins t1)]
      simp
    · show (List.find? p _).map _ = (List.find? p _).map _
      rw [hf1, hf2]; rfl
    · exact ⟨FeedspotScraper.applySet item url t2 (FeedspotScraper.insertDoc item url t1),
        hf2, rfl, rfl, rfl, rfl, rfl,
        FeedspotScraper.insertDoc item url t1, hf1, rfl, hle⟩

/-- Witness for `upsert_idempotent`: two upserts of the same item into an
initially empty store at times 3 then 7; the single stored document keeps
first-seen 3 and gets last-seen 7. -/
theorem upsert_idempotent_witness :
    FeedspotScraper.countKey
        (FeedspotScraper.save_item_to_mongo { guid := some "g" } "u" 7
          (FeedspotScraper.save_item_to_mongo { guid := some "g" } "u" 3 []))
        (FeedspotScraper._generate_unique_id { guid := some "g" } "u") = 1
    ∧ (FeedspotScraper.findByKey
        (FeedspotScraper.save_item_to_mongo { guid := some "g" } "u" 7
          (FeedspotScraper.save_item_to_mongo { guid := some "g" } "u" 3 []))
        (FeedspotScraper._generate_unique_id { guid := some "g" } "u")).map
      (fun d => d.inserted_at) = some 3 := by
  have h := upsert_idempotent [] { guid := some "g" } "u" 3 7 (by omega) (by decide)
  refine ⟨h.1, ?_⟩
  rw [h.2.1]
  rfl

theorem strictItems_keep (pd : String → Option String) (es : List Rssfolder.FPEntry)
    (i : Rssfolder.Item) (h : i ∈ Rssfolder.strictItems pd es) :
    (pyTruthy i.link || pyTruthy i.title) = true := by
  simp only [Rssfolder.strictItems] at h
  exact (List.mem_filter.mp h).2

theorem lxmlItemOf_keep (pd : String → Option String) (el : Rssfolder.XmlEl)
    (i : Rssfolder.Item) (h : Rssfolder.lxmlItemOf pd el = some i) :
    (pyTruthy i.title || pyTruthy i.link) = true := by
  simp only [Rssfolder.lxmlItemOf] at h
  by_cases hg : (pyTruthy (Rssfolder.lxmlTitle el) || pyTruthy (Rssfolder.lxmlLink el)) = true
  · rw [if_pos hg] at h
    cases h
    simpa using hg
  · rw [if_neg hg] at h
    exact absurd h (by simp)

theorem htmlItemOf_keep (pd : String → Option String) (uj : String → String → String)
    (base : String) (c : Rssfolder.HtmlBlock) (i : Rssfolder.Item)
    (h : Rssfolder.htmlItemOf pd uj base c = some i) :
    (pyTruthy i.title || pyTruthy i.link) = true := by
  simp only [Rssfolder.htmlItemOf] at h
  by_cases hg : (pyTruthy (Rssfolder.htmlTitle c)
      || pyTruthy (Rssfolder.htmlLink uj base c)) = true
  · rw [if_pos hg] at h
    cases h
    simpa using hg
  · rw [if_neg hg] at h
    exact absurd h (by simp)

theorem fallback_parse_lxml_keep (pd : String → Option String)
    (root : Except Unit Rssfolder.XmlEl) (i : Rssfolder.Item)
    (h : i ∈ Rssfolder.fallback_parse_lxml pd root) :
    (pyTruthy i.title || pyTruthy i.link) = true := by
  rcases root with e | r
  · exact absurd h (by simp [Rssfolder.fallback_parse_lxml])
  · simp only [Rssfolder.fallback_parse_lxml] at h
    obtain ⟨el, _, heq⟩ := List.mem_filterMap.mp h
    exact lxmlItemOf_keep pd el i heq

theorem fallback_parse_html_keep (pd : String → Option String)
    (uj : String → String → String) (blocks : List Rssfolder.HtmlBlock)
    (base : String) (i : Rssfolder.Item)
    (h : i ∈ Rssfolder.fallback_parse_html pd uj blocks base) :
    (pyTruthy i.title || pyTruthy i.link) = true := by
  simp only [Rssfolder.fallback_parse_html] at h
  obtain ⟨c, _, heq⟩ := List.mem_filterMap.mp h
  exact htmlItemOf_keep pd uj base c i heq

theorem parse_feed_shape (env : Rssfolder.ParseEnv) :
    (env.parsedByUrl = Except.error () ∧ Rssfolder.parse_feed_with_fallbacks env = [])
    ∨ (∃ es, env.parsedByUrl = Except.ok es ∧ ¬es.isEmpty = true
        ∧ ¬(Rssfolder.strictItems env.parseDate es).isEmpty = true
        ∧ Rssfolder.parse_feed_with_fallbacks env
            = Rssfolder.tagItems Rssfolder.Tier.STRICT (Rssfolder.strictItems env.parseDate es))
    ∨ (∃ es, env.parsedByUrl = Except.ok es
        ∧ (es.isEmpty = true ∨ (Rssfolder.strictItems env.parseDate es).isEmpty = true)
        ∧ (env.raw = none ∨ env.raw = some "")
        ∧ Rssfolder.parse_feed_with_fallbacks env = [])
    ∨ (∃ es r, env.parsedByUrl = Except.ok es
        ∧ (es.isEmpty = true ∨ (Rssfolder.strictItems env.parseDate es).isEmpty = true)
        ∧ env.raw = some r ∧ r ≠ "" ∧ env.parsedFromRaw = Except.error ()
        ∧ Rssfolder.parse_feed_with_fallbacks env = [])
    ∨ (∃ es r es2, env.parsedByUrl = Except.ok es
        ∧ (es.isEmpty = true ∨ (Rssfolder.strictItems env.parseDate es).isEmpty = true)
        ∧ env.raw = some r ∧ r ≠ "" ∧ env.parsedFromRaw = Except.ok es2
        ∧ ¬es2.isEmpty = true ∧ ¬(Rssfolder.strictItems env.parseDate es2).isEmpty = true
        ∧ Rssfolder.parse_feed_with_fallbacks env
            = Rssfolder.tagItems Rssfolder.Tier.STRICT (Rssfolder.strictItems env.parseDate es2))
    ∨ (∃ es r es2, env.parsedByUrl = Except.ok es
        ∧ (es.isEmpty = true ∨ (Rssfolder.strictItems env.parseDate es).isEmpty = true)
        ∧ env.raw = some r ∧ r ≠ "" ∧ env.parsedFromRaw = Except.ok es2
        ∧ (es2.isEmpty = true ∨ (Rssfolder.strictItems env.parseDate es2).isEmpty = true)
        ∧ ¬(Rssfolder.fallback_parse_lxml env.parseDate env.xmlRoot).isEmpty = true
        ∧ Rssfolder.parse_feed_with_fallbacks env
            = Rssfolder.tagItems Rssfolder.Tier.RECOVERED
                (Rssfolder.fallback_parse_lxml env.parseDate env.xmlRoot))
    ∨ (∃ es r es2, env.parsedByUrl = Except.ok es
        ∧ (es.isEmpty = true ∨ (Rssfolder.strictItems env.parseDate es).isEmpty = true)
        ∧ env.raw = some r ∧ r ≠ "" ∧ env.parsedFromRaw = Except.ok es2
        ∧ (es2.isEmpty = true ∨ (Rssfolder.strictItems env.parseDate es2).isEmpty = true)
        ∧ (Rssfolder.fallback_parse_lxml env.parseDate env.xmlRoot).isEmpty = true
        ∧ ¬(Rssfolder.fallback_parse_html env.parseDate env.urljoin
              env.htmlBlocks env.feedUrl).isEmpty = true
        ∧ Rssfolder.parse_feed_with_fallbacks env
            = Rssfolder.tagItems Rssfolder.Tier.HEURISTIC
                (Rssfolder.fallback_parse_html env.parseDate env.urljoin
                  env.htmlBlocks env.feedUrl))
    ∨ (∃ es r es2, env.parsedByUrl = Except.ok es
        ∧ (es.isEmpty = true ∨ (Rssfolder.strictItems env.parseDate es).isEmpty = true)
        ∧ env.raw = some r ∧ r ≠ "" ∧ env.parsedFromRaw = Except.ok es2
        ∧ (es2.isEmpty = true ∨ (Rssfolder.strictItems env.parseDate es2).isEmpty = true)
        ∧ (Rssfolder.fallback_parse_lxml env.parseDate env.xmlRoot).isEmpty = true
        ∧ (Rssfolder.fallback_parse_html env.parseDate env.urljoin
              env.htmlBlocks env.feedUrl).isEmpty = true
        ∧ Rssfolder.parse_feed_with_fallbacks env = []) := by
  rcases hby : env.parsedByUrl with e | entries
  · cases e
    exact Or.inl ⟨rfl, by simp [Rssfolder.parse_feed_with_fallbacks, hby]⟩
  · by_cases hc1 : ¬entries.isEmpty = true
        ∧ ¬(Rssfolder.strictItems env.parseDate entries).isEmpty = true
    · refine Or.inr (Or.inl ⟨entries, rfl, hc1.1, hc1.2, ?_⟩)
      simp only [Rssfolder.parse_feed_with_fallbacks, hby]
      rw [if_pos hc1]
    · have hfail1 : entries.isEmpty = true
          ∨ (Rssfolder.strictItems env.parseDate entries).isEmpty = true := by
        by_cases h1 : entries.isEmpty = true
        · exact Or.inl h1
        · by_cases h2 : (Rssfolder.strictItems env.parseDate entries).isEmpty = true
          · exact Or.inr h2
          · exact absurd ⟨h1, h2⟩ hc1
      rcases hr : env.raw with _ | r
      · refine Or.inr (Or.inr (Or.inl ⟨entries, rfl, hfail1, Or.inl rfl, ?_⟩))
        simp only [Rssfolder.parse_feed_with_fallbacks, hby, hr]
        rw [if_neg hc1]
      · by_cases hrE : r = ""
        · subst hrE
          refine Or.inr (Or.inr (Or.inl ⟨entries, rfl, hfail1, Or.inr rfl, ?_⟩))
          simp only [Rssfolder.parse_feed_with_fallbacks, hby, hr]
          rw [if_neg hc1]
          simp
        · rcases hfr : env.parsedFromRaw with e2 | entries2
          · cases e2
            refine Or.inr (Or.inr (Or.inr (Or.inl
              ⟨entries, r, rfl, hfail1, rfl, hrE, rfl, ?_⟩)))
            simp only [Rssfolder.parse_feed_with_fallbacks, hby, hr, hfr]
            rw [if_neg hc1, if_neg hrE]
          · by_cases hc2 : ¬entries2.isEmpty = true
                ∧ ¬(Rssfolder.strictItems env.parseDate entries2).isEmpty = true
            · refine Or.inr (Or.inr (Or.inr (Or.inr (Or.inl
                ⟨entries, r, entries2, rfl, hfail1, rfl, hrE, rfl, hc2.1, hc2.2, ?_⟩))))
              simp only [Rssfolder.parse_feed_with_fallbacks, hby, hr, hfr]
              rw [if_neg hc1, if_neg hrE, if_pos hc2]
            · have hfail2 : entries2.isEmpty = true
                  ∨ (Rssfolder.strictItems env.parseDate entries2).isEmpty = true := by
                by_cases h1 : entries2.isEmpty = true
                · exact Or.inl h1
                · by_cases h2 : (Rssfolder.strictItems env.parseDate entries2).isEmpty = true
                  · exact Or.inr h2
                  · exact absurd ⟨h1, h2⟩ hc2
              by_cases hlx : ¬(Rssfolder.fallback_parse_lxml
                  env.parseDate env.xmlRoot).isEmpty = true
              · refine Or.inr (Or.inr (Or.inr (Or.inr (Or.inr (Or.inl
                  ⟨entries, r, entries2, rfl, hfail1, rfl, hrE, rfl, hfail2, hlx, ?_⟩)))))
                simp only [Rssfolder.parse_feed_with_fallbacks, hby, hr, hfr]
                rw [if_neg hc1, if_neg hrE, if_neg hc2, if_pos hlx]
              · have hlxE : (Rssfolder.fallback_parse_lxml
                    env.parseDate env.xmlRoot).isEmpty = true := by
                  by_cases h1 : (Rssfolder.fallback_parse_lxml
                      env.parseDate env.xmlRoot).isEmpty = true
                  · exact h1
                  · exact absurd h1 hlx
                by_cases hht : ¬(Rssfolder.fallback_parse_html env.parseDate env.urljoin
                    env.htmlBlocks env.feedUrl).isEmpty = true
                · refine Or.inr (Or.inr (Or.inr (Or.inr (Or.inr (Or.inr (Or.inl
                    ⟨entries, r, entries2, rfl, hfail1, rfl, hrE, rfl, hfail2, hlxE,
                      hht, ?_⟩))))))
                  simp only [Rssfolder.parse_feed_with_fallbacks, hby, hr, hfr]
                  rw [if_neg hc1, if_neg hrE, if_neg hc2, if_neg hlx, if_pos hht]
                · have hhtE : (Rssfolder.fallback_parse_html env.parseDate env.urljoin
                      env.htmlBlocks env.feedUrl).isEmpty = true := by
                    by_cases h1 : (Rssfolder.fallback_parse_html env.parseDate env.urljoin
                        env.htmlBlocks env.feedUrl).isEmpty = true
                    · exact h1
                    · exact absurd h1 hht
                  refine Or.inr (Or.inr (Or.inr (Or.inr (Or.inr (Or.inr (Or.inr
                    ⟨entries, r, entries2, rfl, hfail1, rfl, hrE, rfl, hfail2, hlxE,
                      hhtE, ?_⟩))))))
                  simp only [Rssfolder.parse_feed_with_fallbacks, hby, hr, hfr]
                  rw [if_neg hc1, if_neg hrE, if_neg hc2, if_neg hlx, if_neg hht]

/-- C5: every item emitted by `parse_feed_with_fallbacks` has a truthy
(present and non-empty) title or link: each tier discards an extracted
item whose title and link are both empty or absent, so such an item
never reaches the upsert sink. -/
theorem parse_items_title_or_link (env : Rssfolder.ParseEnv)
    (ti : Rssfolder.TaggedItem)
    (h : ti ∈ Rssfolder.parse_feed_with_fallbacks env) :
    pyTruthy ti.item.title = true ∨ pyTruthy ti.item.link = true := by
  rcases parse_feed_shape env with
    ⟨_, hE⟩ | ⟨es, _, _, _, hEq⟩ | ⟨es, _, _, _, hE⟩ | ⟨es, r, _, _, _, _, _, hE⟩
    | ⟨es, r, es2, _, _, _, _, _, _, _, hEq⟩ | ⟨es, r, es2, _, _, _, _, _, _, _, hEq⟩
    | ⟨es, r, es2, _, _, _, _, _, _, _, _, hEq⟩ | ⟨es, r, es2, _, _, _, _, _, _, _, _, hE⟩
  · rw [hE] at h; exact absurd h (List.not_mem_nil ti)
  · rw [hEq] at h
    simp only [Rssfolder.tagItems] at h
    obtain ⟨i, hi, rfl⟩ := List.mem_map.mp h
    rcases Bool.or_eq_true _ _ |>.mp (strictItems_keep env.parseDate es i hi) with hl | ht
    · exact Or.inr hl
    · exact Or.inl ht
  · rw [hE] at h; exact absurd h (List.not_mem_nil ti)
  · rw [hE] at h; exact absurd h (List.not_mem_nil ti)
  · rw [hEq] at h
    simp only [Rssfolder.tagItems] at h
    obtain ⟨i, hi, rfl⟩ := List.mem_map.mp h
    rcases Bool.or_eq_true _ _ |>.mp (strictItems_keep env.parseDate es2 i hi) with hl | ht
    · exact Or.inr hl
    · exact Or.inl ht
  · rw [hEq] at h
    simp only [Rssfolder.tagItems] at h
    obtain ⟨i, hi, rfl⟩ := List.mem_map.mp h
    rcases Bool.or_eq_true _ _ |>.mp
        (fallback_parse_lxml_keep env.parseDate env.xmlRoot i hi) with ht | hl
    · exact Or.inl ht
    · exact Or.inr hl
  · rw [hEq] at h
    simp only [Rssfolder.tagItems] at h
    obtain ⟨i, hi, rfl⟩ := List.mem_map.mp h
    rcases Bool.or_eq_true _ _ |>.mp
        (fallback_parse_html_keep env.parseDate env.urljoin env.htmlBlocks
          env.feedUrl i hi) with ht | hl
    · exact Or.inl ht
    · exact Or.inr hl
  · rw [hE] at h; exact absurd h (List.not_mem_nil ti)

/-- Witness for `parse_items_title_or_link`: a strict-tier feed with one
titled entry; the emitted item has a truthy title. -/
theorem parse_items_title_or_link_witness :
    ({ item := { author := none, link := none, pubDate := none, title := some "T" },
       tier := Rssfolder.Tier.STRICT } : Rssfolder.TaggedItem) ∈
      Rssfolder.parse_feed_with_fallbacks
        { feedUrl := "u", parseDate := fun _ => none, urljoin := fun _ h => h,
          parsedByUrl := Except.ok [{ title := some "T" }], raw := none,
          parsedFromRaw := Except.ok [], xmlRoot := Except.error (),
          htmlBlocks := [] }
    ∧ (pyTruthy (some "T") = true ∨ pyTruthy (none : Option String) = true) := by
  constructor
  · decide
  · exact parse_items_title_or_link
      { feedUrl := "u", parseDate := fun _ => none, urljoin := fun _ h => h,
        parsedByUrl := Except.ok [{ title := some "T" }], raw := none,
        parsedFromRaw := Except.ok [], xmlRoot := Except.error (),
        htmlBlocks := [] }
      { item := { author := none, link := none, pubDate := none, title := some "T" },
        tier := Rssfolder.Tier.STRICT }
      (by decide)

theorem strict_fail_of (pd : String → Option String) (es : List Rssfolder.FPEntry)
    (h : es.isEmpty = true ∨ (Rssfolder.strictItems pd es).isEmpty = true) :
    Rssfolder.strictItems pd es = [] := by
  rcases h with h | h
  · rw [List.isEmpty_iff.mp h]; rfl
  · exact List.isEmpty_iff.mp h

theorem mem_tagItems_tier (t : Rssfolder.Tier) (l : List Rssfolder.Item)
    (ti : Rssfolder.TaggedItem) (h : ti ∈ Rssfolder.tagItems t l) : ti.tier = t := by
  simp only [Rssfolder.tagItems] at h
  obtain ⟨i, _, rfl⟩ := List.mem_map.mp h
  rfl

theorem ne_nil_of_not_isEmpty {α : Type} (l : List α) (h : ¬l.isEmpty = true) :
    l ≠ [] := by
  intro hnil; rw [hnil] at h; exact h rfl

/-- C1 counterexample: a body from which the strict tier extracts one
entry — an entry with no title and no link, which the item filter then
drops — makes the parser fall through to the later tiers: here it
returns a RECOVERED-tagged item from the lxml tier, refuting "for every
body from which the strict tier extracts at least one entry, the
returned items come only from the strict tier". -/
theorem parse_strict_entry_fallthrough :
    ({ feedUrl := "u", parseDate := fun _ => none, urljoin := fun _ h => h,
       parsedByUrl := Except.ok [{}], raw := some "x",
       parsedFromRaw := Except.ok [],
       xmlRoot := Except.ok (Rssfolder.XmlEl.mk "rss" [] none
         [Rssfolder.XmlEl.mk "item" [] none
           [Rssfolder.XmlEl.mk "title" [] (some "T") []]]),
       htmlBlocks := [] } : Rssfolder.ParseEnv).parsedByUrl
      = Except.ok [({} : Rssfolder.FPEntry)]
    ∧ ([({} : Rssfolder.FPEntry)] : List Rssfolder.FPEntry) ≠ []
    ∧ Rssfolder.parse_feed_with_fallbacks
        { feedUrl := "u", parseDate := fun _ => none, urljoin := fun _ h => h,
          parsedByUrl := Except.ok [{}], raw := some "x",
          parsedFromRaw := Except.ok [],
          xmlRoot := Except.ok (Rssfolder.XmlEl.mk "rss" [] none
            [Rssfolder.XmlEl.mk "item" [] none
              [Rssfolder.XmlEl.mk "title" [] (some "T") []]]),
          htmlBlocks := [] }
      = [{ item := { author := none, link := none, pubDate := none, title := some "T" },
           tier := Rssfolder.Tier.RECOVERED }] := by
  refine ⟨rfl, by decide, by decide⟩

/-- C1 (amended): the tiers are attempted in the fixed order strict
(feedparser by URL, then on the fetched body), lxml recovery, HTML
heuristic, stopping at the first tier that yields at least one *item*
(an entry surviving the title-or-link filter, not merely an extracted
entry).  If the strict tier yields at least one item the result is
exactly those items tagged STRICT; a RECOVERED item occurs only when
both strict attempts yielded no item, and a HEURISTIC item only when
the lxml tier also yielded nothing. -/
theorem parse_tier_order (env : Rssfolder.ParseEnv) :
    (∀ es, env.parsedByUrl = Except.ok es →
      Rssfolder.strictItems env.parseDate es ≠ [] →
      Rssfolder.parse_feed_with_fallbacks env
        = Rssfolder.tagItems Rssfolder.Tier.STRICT
            (Rssfolder.strictItems env.parseDate es))
    ∧ (∀ ti ∈ Rssfolder.parse_feed_with_fallbacks env,
        ti.tier = Rssfolder.Tier.RECOVERED →
        (∀ es, env.parsedByUrl = Except.ok es →
          Rssfolder.strictItems env.parseDate es = [])
        ∧ (∀ es2, env.parsedFromRaw = Except.ok es2 →
          Rssfolder.strictItems env.parseDate es2 = [])
        ∧ Rssfolder.fallback_parse_lxml env.parseDate env.xmlRoot ≠ []
        ∧ Rssfolder.parse_feed_with_fallbacks env
            = Rssfolder.tagItems Rssfolder.Tier.RECOVERED
                (Rssfolder.fallback_parse_lxml env.parseDate env.xmlRoot))
    ∧ (∀ ti ∈ Rssfolder.parse_feed_with_fallbacks env,
        ti.tier = Rssfolder.Tier.HEURISTIC →
        (∀ es, env.parsedByUrl = Except.ok es →
          Rssfolder.strictItems env.parseDate es = [])
        ∧ (∀ es2, env.parsedFromRaw = Except.ok es2 →
          Rssfolder.strictItems env.parseDate es2 = [])
        ∧ Rssfolder.fallback_parse_lxml env.parseDate env.xmlRoot = []
        ∧ Rssfolder.parse_feed_with_fallbacks env
            = Rssfolder.tagItems Rssfolder.Tier.HEURISTIC
                (Rssfolder.fallback_parse_html env.parseDate env.urljoin
                  env.htmlBlocks env.feedUrl)) := by
  refine ⟨?_, ?_, ?_⟩
  · intro es hok hne
    rcases parse_feed_shape env with
      ⟨hby, _⟩ | ⟨es0, hby, _, _, hEq⟩ | ⟨es0, hby, hf, _, _⟩
      | ⟨es0, r, hby, hf, _, _, _, _⟩ | ⟨es0, r, es2, hby, hf, _, _, _, _, _, _⟩
      | ⟨es0, r, es2, hby, hf, _, _, _, _, _, _⟩
      | ⟨es0, r, es2, hby, hf, _, _, _, _, _, _, _⟩
      | ⟨es0, r, es2, hby, hf, _, _, _, _, _, _, _⟩
    · rw [hok] at hby; exact absurd hby (by simp)
    · have hes : es0 = es := by
        rw [hok] at hby; exact (Except.ok.inj hby).symm
      rw [hEq, hes]
    all_goals {
      have hes : es0 = es := by
        rw [hok] at hby; exact (Except.ok.inj hby).symm
      rw [hes] at hf
      exact absurd (strict_fail_of env.parseDate es hf) hne }
  · intro ti hmem htier
    rcases parse_feed_shape env with
      ⟨hby, hE⟩ | ⟨es0, hby, _, _, hEq⟩ | ⟨es0, hby, hf, _, hE⟩
      | ⟨es0, r, hby, hf, _, _, hfr, hE⟩ | ⟨es0, r, es2, hby, hf, _, _, hfr, _, _, hEq⟩
      | ⟨es0, r, es2, hby, hf, _, _, hfr, hf2, hlx, hEq⟩
      | ⟨es0, r, es2, hby, hf, _, _, hfr, hf2, hlxE, hht, hEq⟩
      | ⟨es0, r, es2, hby, hf, _, _, hfr, hf2, hlxE, hhtE, hE⟩
    · rw [hE] at hmem; exact absurd hmem (List.not_mem_nil ti)
    · rw [hEq] at hmem
      rw [mem_tagItems_tier _ _ _ hmem] at htier
      exact absurd htier (by simp)
    · rw [hE] at hmem; exact absurd hmem (List.not_mem_nil ti)
    · rw [hE] at hmem; exact absurd hmem (List.not_mem_nil ti)
    · rw [hEq] at hmem
      rw [mem_tagItems_tier _ _ _ hmem] at htier
      exact absurd htier (by simp)
    · refine ⟨?_, ?_, ne_nil_of_not_isEmpty _ hlx, hEq⟩
      · intro es3 hok3
        have hes : es0 = es3 := by rw [hok3] at hby; exact (Except.ok.inj hby).symm
        rw [hes] at hf
        exact strict_fail_of env.parseDate es3 hf
      · intro es3 hok3
        have hes : es2 = es3 := by rw [hok3] at hfr; exact (Except.ok.inj hfr).symm
        rw [hes] at hf2
        exact strict_fail_of env.parseDate es3 hf2
    · rw [hEq] at hmem
      rw [mem_tagItems_tier _ _ _ hmem] at htier
      exact absurd htier (by simp)
    · rw [hE] at hmem; exact absurd hmem (List.not_mem_nil ti)
  · intro ti hmem htier
    rcases parse_feed_shape env with
      ⟨hby, hE⟩ | ⟨es0, hby, _, _, hEq⟩ | ⟨es0, hby, hf, _, hE⟩
      | ⟨es0, r, hby, hf, _, _, hfr, hE⟩ | ⟨es0, r, es2, hby, hf, _, _, hfr, _, _, hEq⟩
      | ⟨es0, r, es2, hby, hf, _, _, hfr, hf2, hlx, hEq⟩
      | ⟨es0, r, es2, hby, hf, _, _, hfr, hf2, hlxE, hht, hEq⟩
      | ⟨es0, r, es2, hby, hf, _, _, hfr, hf2, hlxE, hhtE, hE⟩
    · rw [hE] at hmem; exact absurd hmem (List.not_mem_nil ti)
    · rw [hEq] at hmem
      rw [mem_tagItems_tier _ _ _ hmem] at htier
      exact absurd htier (by simp)
    · rw [hE] at hmem; exact absurd hmem (List.not_mem_nil ti)
    · rw [hE] at hmem; exact absurd hmem (List.not_mem_nil ti)
    · rw [hEq] at hmem
      rw [mem_tagItems_tier _ _ _ hmem] at htier
      exact absurd htier (by simp)
    · rw [hEq] at hmem
      rw [mem_tagItems_tier _ _ _ hmem] at htier
      exact absurd htier (by simp)
    · refine ⟨?_, ?_, List.isEmpty_iff.mp hlxE, hEq⟩
      · intro es3 hok3
        have hes : es0 = es3 := by rw [hok3] at hby; exact (Except.ok.inj hby).symm
        rw [hes] at hf
        exact strict_fail_of env.parseDate es3 hf
      · intro es3 hok3
        have hes : es2 = es3 := by rw [hok3] at hfr; exact (Except.ok.inj hfr).symm
        rw [hes] at hf2
        exact strict_fail_of env.parseDate es3 hf2
    · rw [hE] at hmem; exact absurd hmem (List.not_mem_nil ti)

/-- Witness for `parse_tier_order`: a feed whose strict tier yields one
item; the parser returns exactly that item tagged STRICT. -/
theorem parse_tier_order_witness :
    Rssfolder.parse_feed_with_fallbacks
        { feedUrl := "u", parseDate := fun _ => none, urljoin := fun _ h => h,
          parsedByUrl := Except.ok [{ title := some "T", link := some "L" }],
          raw := none, parsedFromRaw := Except.ok [], xmlRoot := Except.error (),
          htmlBlocks := [] }
      = Rssfolder.tagItems Rssfolder.Tier.STRICT
          (Rssfolder.strictItems (fun _ => none)
            [{ title := some "T", link := some "L" }]) := by
  exact (parse_tier_order
    { feedUrl := "u", parseDate := fun _ => none, urljoin := fun _ h => h,
      parsedByUrl := Except.ok [{ title := some "T", link := some "L" }],
      raw := none, parsedFromRaw := Except.ok [], xmlRoot := Except.error (),
      htmlBlocks := [] }).1
    [{ title := some "T", link := some "L" }] rfl (by decide)

/-- C2 counterexample: on total failure (a fetched feed with zero
entries) `RSSAggregator.parse_feed` returns `None`, not an empty list of
items — in particular not the empty-entries record — so "on total
failure the parse operation returns an empty list" fails for this cited
operation (its tiered counterpart does return `[]`). -/
theorem parse_feed_none_on_total_failure :
    Refinerss.parse_feed { response := Except.ok [], now := 0 } "u" = none
    ∧ (none : Option Refinerss.RFFeedData)
        ≠ some { feed_url := "u", entries := [], total_entries := 0 } := by
  exact ⟨rfl, by decide⟩

/-- C2 (amended): no failure mode escapes the parsers.  All failure
paths of `parse_feed_with_fallbacks` — the strict parser raising, the
fetch returning nothing or an empty body, the re-parse raising, or all
three tiers yielding no item — produce the empty list; and
`RSSAggregator.parse_feed` likewise never propagates an exception but
signals total failure (fetch/parse raising, or zero entries) by
returning `None` rather than an empty list. -/
theorem parse_total_failure_empty (env : Rssfolder.ParseEnv)
    (renv : Refinerss.RFEnv) (url : String) :
    (env.parsedByUrl = Except.error () →
      Rssfolder.parse_feed_with_fallbacks env = [])
    ∧ (∀ es, env.parsedByUrl = Except.ok es →
        (es.isEmpty = true ∨ (Rssfolder.strictItems env.parseDate es).isEmpty = true) →
        (env.raw = none ∨ env.raw = some "") →
        Rssfolder.parse_feed_with_fallbacks env = [])
    ∧ (∀ es r, env.parsedByUrl = Except.ok es →
        (es.isEmpty = true ∨ (Rssfolder.strictItems env.parseDate es).isEmpty = true) →
        env.raw = some r → r ≠ "" → env.parsedFromRaw = Except.error () →
        Rssfolder.parse_feed_with_fallbacks env = [])
    ∧ (∀ es r es2, env.parsedByUrl = Except.ok es →
        (es.isEmpty = true ∨ (Rssfolder.strictItems env.parseDate es).isEmpty = true) →
        env.raw = some r → r ≠ "" → env.parsedFromRaw = Except.ok es2 →
        (es2.isEmpty = true ∨ (Rssfolder.strictItems env.parseDate es2).isEmpty = true) →
        Rssfolder.fallback_parse_lxml env.parseDate env.xmlRoot = [] →
        Rssfolder.fallback_parse_html env.parseDate env.urljoin
          env.htmlBlocks env.feedUrl = [] →
        Rssfolder.parse_feed_with_fallbacks env = [])
    ∧ (renv.response = Except.error () → Refinerss.parse_feed renv url = none)
    ∧ (renv.response = Except.ok [] → Refinerss.parse_feed renv url = none) := by
  have hneg : ∀ (l : List Rssfolder.FPEntry) (pd : String → Option String),
      (l.isEmpty = true ∨ (Rssfolder.strictItems pd l).isEmpty = true) →
      ¬(¬l.isEmpty = true ∧ ¬(Rssfolder.strictItems pd l).isEmpty = true) := by
    intro l pd hf
    rcases hf with h | h
    · exact fun hc => hc.1 h
    · exact fun hc => hc.2 h
  refine ⟨?_, ?_, ?_, ?_, ?_, ?_⟩
  · intro h
    simp [Rssfolder.parse_feed_with_fallbacks, h]
  · intro es hok hf hraw
    rcases hraw with h | h
    · simp only [Rssfolder.parse_feed_with_fallbacks, hok, h]
      rw [if_neg (hneg es env.parseDate hf)]
    · simp only [Rssfolder.parse_feed_with_fallbacks, hok, h]
      rw [if_neg (hneg es env.parseDate hf)]
      simp
  · intro es r hok hf hr hrne hfr
    simp only [Rssfolder.parse_feed_with_fallbacks, hok, hr, hfr]
    rw [if_neg (hneg es env.parseDate hf), if_neg hrne]
  · intro es r es2 hok hf hr hrne hfr hf2 hlx hht
    simp only [Rssfolder.parse_feed_with_fallbacks, hok, hr, hfr]
    rw [if_neg (hneg es env.parseDate hf), if_neg hrne,
      if_neg (hneg es2 env.parseDate hf2)]
    simp [hlx, hht]
  · intro h
    simp [Refinerss.parse_feed, h]
  · intro h
    simp [Refinerss.parse_feed, h]

/-- Witness for `parse_total_failure_empty`: the tiered parser returns
`[]` when the strict library call raises, and `parse_feed` returns
`None` when its fetch raises. -/
theorem parse_total_failure_empty_witness :
    Rssfolder.parse_feed_with_fallbacks
        { feedUrl := "u", parseDate := fun _ => none, urljoin := fun _ h => h,
          parsedByUrl := Except.error (), raw := none,
          parsedFromRaw := Except.ok [], xmlRoot := Except.error (),
          htmlBlocks := [] } = []
    ∧ Refinerss.parse_feed { response := Except.error (), now := 0 } "u" = none := by
  constructor
  · exact (parse_total_failure_empty
      { feedUrl := "u", parseDate := fun _ => none, urljoin := fun _ h => h,
        parsedByUrl := Except.error (), raw := none,
        parsedFromRaw := Except.ok [], xmlRoot := Except.error (),
        htmlBlocks := [] }
      { response := Except.error (), now := 0 } "u").1 rfl
  · exact (parse_total_failure_empty
      { feedUrl := "u", parseDate := fun _ => none, urljoin := fun _ h => h,
        parsedByUrl := Except.error (), raw := none,
        parsedFromRaw := Except.ok [], xmlRoot := Except.error (),
        htmlBlocks := [] }
      { response := Except.error (), now := 0 } "u").2.2.2.2.1 rfl

theorem insertSorted_perm (s : String) (l : List String) :
    (insertSorted s l).Perm (s :: l) := by
  induction l with
  | nil => simp [insertSorted]
  | cons x xs ih =>
    simp only [insertSorted]
    by_cases h : s ≤ x
    · rw [if_pos h]
    · rw [if_neg h]
      exact (List.Perm.cons x ih).trans (List.Perm.swap s x xs)

theorem pySorted_perm (l : List String) : (pySorted l).Perm l := by
  induction l with
  | nil => simp [pySorted]
  | cons x xs ih =>
    have hfold : pySorted (x :: xs) = insertSorted x (pySorted xs) := rfl
    rw [hfold]
    exact (insertSorted_perm x (pySorted xs)).trans (List.Perm.cons x ih)

theorem pySorted_nodup (l : List String) (h : l.Nodup) : (pySorted l).Nodup :=
  (pySorted_perm l).nodup_iff.mpr h

theorem mem_pySorted (l : List String) (u : String) : u ∈ pySorted l ↔ u ∈ l :=
  (pySorted_perm l).mem_iff

/-- C8: `extract_feed_links_from_resource` deduplicates by resolved
absolute URL: the returned list never holds the same URL twice, and any
anchor whose resolved URL passes the feed-likeness filter and the final
pseudo-link/blocklist filter contributes exactly one entry — so two
anchors with identical resolved URLs (whatever their link text) yield
exactly one source. -/
theorem extract_links_dedup (env : Rssfolder.ResPageEnv) (base : String) :
    (Rssfolder.extract_feed_links_from_resource env base).Nodup
    ∧ (∀ u ∈ Rssfolder.extract_feed_links_from_resource env base,
        List.count u (Rssfolder.extract_feed_links_from_resource env base) = 1)
    ∧ (∀ h ∈ env.anchors,
        Rssfolder.feedTokenAny (strLower (Rssfolder.resolveHref env base h)) = true →
        Rssfolder.keepCandidate env (Rssfolder.resolveHref env base h) = true →
        Rssfolder.resolveHref env base h
            ∈ Rssfolder.extract_feed_links_from_resource env base
        ∧ List.count (Rssfolder.resolveHref env base h)
            (Rssfolder.extract_feed_links_from_resource env base) = 1) := by
  have hnd : (Rssfolder.extract_feed_links_from_resource env base).Nodup := by
    show ((pySorted ((env.anchors.filterMap (fun h =>
        if Rssfolder.feedTokenAny (strLower (Rssfolder.resolveHref env base h)) then
          some (Rssfolder.resolveHref env base h) else none)
      ++ env.linkTags.filterMap (fun h =>
        if Rssfolder.linkTagTokenAny (strLower (Rssfolder.resolveHref env base h)) then
          some (Rssfolder.resolveHref env base h) else none)
      ++ env.textTokens.filter (fun t =>
        strStartsWith t "http" && Rssfolder.linkTagTokenAny (strLower t))).dedup)).filter
        (Rssfolder.keepCandidate env)).Nodup
    exact List.Nodup.filter _ (pySorted_nodup _ (List.nodup_dedup _))
  refine ⟨hnd, fun u hu => List.count_eq_one_of_mem hnd hu, ?_⟩
  intro h hanch hguard hkeep
  have hmem : Rssfolder.resolveHref env base h
      ∈ Rssfolder.extract_feed_links_from_resource env base := by
    show Rssfolder.resolveHref env base h
        ∈ ((pySorted ((env.anchors.filterMap (fun h =>
          if Rssfolder.feedTokenAny (strLower (Rssfolder.resolveHref env base h)) then
            some (Rssfolder.resolveHref env base h) else none)
        ++ env.linkTags.filterMap (fun h =>
          if Rssfolder.linkTagTokenAny (strLower (Rssfolder.resolveHref env base h)) then
            some (Rssfolder.resolveHref env base h) else none)
        ++ env.textTokens.filter (fun t =>
          strStartsWith t "http" && Rssfolder.linkTagTokenAny (strLower t))).dedup)).filter
          (Rssfolder.keepCandidate env))
    refine List.mem_filter.mpr ⟨?_, hkeep⟩
    rw [mem_pySorted, List.mem_dedup]
    refine List.mem_append_left _ (List.mem_append_left _ ?_)
    exact List.mem_filterMap.mpr ⟨h, hanch, by rw [if_pos hguard]⟩
  exact ⟨hmem, List.count_eq_one_of_mem hnd hmem⟩

/-- Witness for `extract_links_dedup`: a page with two anchors whose
hrefs resolve to the same absolute URL `a.xml`; discovery returns it as
exactly one source. -/
theorem extract_links_dedup_witness :
    "a.xml" ∈ Rssfolder.extract_feed_links_from_resource
        { anchors := ["a.xml", "a.xml"], linkTags := [], textTokens := [],
          clean := fun s => s, urljoin := fun _ h => h, netloc := fun _ => "" } "b"
    ∧ List.count "a.xml" (Rssfolder.extract_feed_links_from_resource
        { anchors := ["a.xml", "a.xml"], linkTags := [], textTokens := [],
          clean := fun s => s, urljoin := fun _ h => h, netloc := fun _ => "" } "b") = 1 := by
  exact (extract_links_dedup
    { anchors := ["a.xml", "a.xml"], linkTags := [], textTokens := [],
      clean := fun s => s, urljoin := fun _ h => h, netloc := fun _ => "" } "b").2.2
    "a.xml" (by decide) (by decide) (by decide)
